import Mathlib

/-!
# Verification of the qlsv-flash student-management application

Shallow embedding of the login-lockout state machine (`src/app.py`), the
session-only login route (`src/auth.py`), the roster import/export
reconciliation (`src/admin_routes.py` and the legacy copies in `src/app.py`),
and the grade range validation (`src/admin_routes.py`, `src/manager_routes.py`).

Modelling conventions:
- timestamps (`datetime.utcnow()`) are integers counting seconds;
- the SQLAlchemy account store is a `List Account` kept in ascending id order
  (matching `order_by(Student.id.asc())`); `query.first()` is the first list
  element matching the filter, and mutating the found ORM object is replacing
  the first matching element;
- Python `str.strip()` and `str.lower()` are `pyStrip` and `pyLower` below,
  written by structural recursion on the character list so that the kernel
  can evaluate them on concrete inputs (they agree with the library functions
  on the ASCII data this application handles);
- `bcrypt.generate_password_hash` is modelled as an injective encoding
  `hashPw`, and `bcrypt.check_password_hash` as equality with that encoding;
- the commit of a transaction checks the unique constraints of `models.py`
  (`ma_sv`, `email`) and either applies all buffered changes or none.
-/

/-- Drop leading whitespace characters from a character list. -/
def dropLeadingWs : List Char → List Char
  | [] => []
  | c :: cs => if c.isWhitespace then dropLeadingWs cs else c :: cs

/-- Python `str.strip()`: remove leading and trailing whitespace. -/
def pyStrip (s : String) : String :=
  ⟨(dropLeadingWs (dropLeadingWs s.data).reverse).reverse⟩

/-- Python `str.lower()` (ASCII case folding, which covers the data
this application compares case-insensitively). -/
def pyLower (s : String) : String :=
  ⟨s.data.map Char.toLower⟩

/-- `re.fullmatch(r"[A-Za-z0-9_-]+", s)` succeeds
(`validate_ma_sv` in `app.py`, and the import row check). -/
def maSvPattern (s : String) : Bool :=
  !s.data.isEmpty && s.data.all (fun c => c.isAlphanum || c = '_' || c = '-')

/-- One row of the `students` table (`models.py`, class `Student`). -/
structure Account where
  id : Nat
  ma_sv : String
  ten_sv : String
  email : String
  mat_khau : String
  role : String
  gioi_tinh : Option String
  dia_chi : Option String
  failed_attempts : Nat
  last_failed_at : Option Int
  lock_until : Option Int
deriving Repr, DecidableEq

/-- Modelled from bcrypt: `generate_password_hash`, as an injective encoding
of the plaintext (real bcrypt salts each hash, which only strengthens every
non-restoration statement proved below). -/
def hashPw (plain : String) : String := "$2b$12$" ++ plain

/-- `Student.check_password` (`models.py` line 90). -/
def checkPassword (u : Account) (plain : String) : Bool :=
  u.mat_khau = hashPw plain

/-- `is_locked` (`app.py` lines 244-245):
`bool(user.lock_until and user.lock_until > datetime.utcnow())`. -/
def is_locked (now : Int) (u : Account) : Bool :=
  match u.lock_until with
  | none => false
  | some t => now < t

/-- `record_failed_login` (`app.py` lines 247-259). -/
def record_failed_login (now : Int) (u : Account) : Account :=
  let u1 :=
    match u.last_failed_at with
    | some t => if 60 < now - t then { u with failed_attempts := 0 } else u
    | none => u
  let u2 := { u1 with failed_attempts := u1.failed_attempts + 1, last_failed_at := some now }
  if 3 ≤ u2.failed_attempts then
    { u2 with lock_until := some (now + 60), failed_attempts := 0 }
  else
    u2

/-- `clear_failed_login` (`app.py` lines 261-265). -/
def clear_failed_login (u : Account) : Account :=
  { u with failed_attempts := 0, last_failed_at := none, lock_until := none }

/-- Outcome of one attempt of the `/login` route of `app.py`. -/
inductive LoginOutcome where
  /-- flash "Sai tài khoản hoặc mật khẩu" -/
  | badCreds
  /-- flash "Tài khoản đang bị khóa. Thử lại sau {remain}s" -/
  | locked (remain : Int)
  /-- `login_user(user)`: an authenticated session is established -/
  | success (uid : Nat) (role : String)
deriving Repr, DecidableEq

/-- The per-account part of the `/login` route of `app.py` (lines 294-306):
lock check, then password check with `record_failed_login` on failure, then
`clear_failed_login` and `login_user` on success.  The remaining-seconds
value is `int((user.lock_until - datetime.utcnow()).total_seconds())`. -/
def loginStep (now : Int) (u : Account) (pw : String) : LoginOutcome × Account :=
  if is_locked now u then
    (.locked ((u.lock_until.getD 0) - now), u)
  else if ¬ checkPassword u pw then
    (.badCreds, record_failed_login now u)
  else
    (.success u.id u.role, clear_failed_login u)

/-- Replace the first element satisfying `p` by its image under `f`
(mutation of the single ORM object returned by `query.first()`). -/
def updateFirst {α : Type} (p : α → Bool) (f : α → α) : List α → List α
  | [] => []
  | a :: l => if p a then f a :: l else a :: updateFirst p f l

/-- The `/login` route of `app.py` (lines 270-316) over the whole store:
lookup `(Student.ma_sv == ident) | (Student.email == ident.lower())`,
then `loginStep`; the committed store replaces the found account. -/
def appLogin (now : Int) (store : List Account) (identifier password : String) :
    LoginOutcome × List Account :=
  let ident := pyStrip identifier
  let p : Account → Bool := fun u => u.ma_sv = ident ∨ u.email = pyLower ident
  match store.find? p with
  | none => (.badCreds, store)
  | some u =>
      let r := loginStep now u password
      (r.1, updateFirst p (fun _ => r.2) store)

/-- A sample account used by concrete witnesses below. -/
def acctA : Account :=
  { id := 1, ma_sv := "SV001", ten_sv := "Nguyen Van A", email := "a@x.com",
    mat_khau := hashPw "pass123", role := "student", gioi_tinh := some "Nam",
    dia_chi := some "HN", failed_attempts := 0, last_failed_at := none,
    lock_until := none }

-- sanity examples (concrete evaluation of the embedded definitions)
example : is_locked 10 { acctA with lock_until := some 20 } = true := by decide
example : pyStrip "  ab " = "ab" := by decide
example : pyLower "A@X.Com" = "a@x.com" := by decide
example : maSvPattern "bad id!" = false := by decide
example : maSvPattern "SV001" = true := by decide
example : (loginStep 100 acctA "pass123").1 = .success 1 "student" := by decide
example : (loginStep 100 acctA "wrong").2.failed_attempts = 1 := by decide

/-! ## Helper lemmas about the lockout state machine -/

/-- Closed-form description of `record_failed_login`. -/
lemma record_failed_eq (now : Int) (u : Account) :
    record_failed_login now u =
      (let base : Nat :=
        match u.last_failed_at with
        | some t => if 60 < now - t then 0 else u.failed_attempts
        | none => u.failed_attempts
      if 3 ≤ base + 1 then
        { u with failed_attempts := 0, last_failed_at := some now,
                 lock_until := some (now + 60) }
      else
        { u with failed_attempts := base + 1, last_failed_at := some now }) := by
  unfold record_failed_login
  cases hl : u.last_failed_at with
  | none => rfl
  | some t =>
      by_cases hd : 60 < now - t
      · simp [hd]
      · simp [hd]

lemma record_failed_of_zero (now : Int) (u : Account) (h : u.failed_attempts = 0) :
    record_failed_login now u = { u with failed_attempts := 1, last_failed_at := some now } := by
  rw [record_failed_eq]
  cases hl : u.last_failed_at <;> simp [h, hl]

lemma record_failed_of_one (now t : Int) (u : Account)
    (h : u.failed_attempts = 1) (hl : u.last_failed_at = some t) (hfresh : now - t ≤ 60) :
    record_failed_login now u = { u with failed_attempts := 2, last_failed_at := some now } := by
  rw [record_failed_eq]
  have hd : ¬ (60 < now - t) := by omega
  simp [h, hl, hd]

lemma record_failed_of_two (now t : Int) (u : Account)
    (h : u.failed_attempts = 2) (hl : u.last_failed_at = some t) (hfresh : now - t ≤ 60) :
    record_failed_login now u =
      { u with failed_attempts := 0, last_failed_at := some now, lock_until := some (now + 60) } := by
  rw [record_failed_eq]
  have hd : ¬ (60 < now - t) := by omega
  simp [h, hl, hd]

lemma is_locked_mono (now now2 : Int) (u v : Account)
    (h : is_locked now u = false) (hle : now ≤ now2) (hsame : v.lock_until = u.lock_until) :
    is_locked now2 v = false := by
  unfold is_locked at h ⊢
  rw [hsame]
  cases hl : u.lock_until with
  | none => rfl
  | some t => rw [hl] at h; simp at h ⊢; omega

/-! ## Claim theorems: lockout state machine -/

/-- C1: for every account and every wrong-password login attempt while the
account is not locked, the attempt is refused with the bad-credentials
message and the lockout fields are updated exactly as the spec says: if more
than 60 seconds have elapsed since `last_failed_at` the counter is reset to 0
before incrementing; the counter is then incremented and `last_failed_at` set
to now; and if the counter thereby reaches 3, `lock_until` is set to
`now + 60` and the counter is reset to 0. -/
theorem claim1_wrong_password_update (now : Int) (u : Account) (pw : String)
    (hlock : is_locked now u = false) (hpw : checkPassword u pw = false) :
    loginStep now u pw =
      (.badCreds,
        let base : Nat :=
          match u.last_failed_at with
          | some t => if 60 < now - t then 0 else u.failed_attempts
          | none => u.failed_attempts
        if 3 ≤ base + 1 then
          { u with failed_attempts := 0, last_failed_at := some now,
                   lock_until := some (now + 60) }
        else
          { u with failed_attempts := base + 1, last_failed_at := some now }) := by
  unfold loginStep
  simp only [hlock, hpw, Bool.false_eq_true, if_false, Bool.not_false, if_true]
  rw [record_failed_eq]
  simp

/-- `acctA` after two recent failed attempts. -/
def acctTwoFails : Account :=
  { acctA with failed_attempts := 2, last_failed_at := some 50 }

/-- `acctA` freshly locked at time 60. -/
def acctLockedAt60 : Account :=
  { acctA with failed_attempts := 0, last_failed_at := some 60, lock_until := some 120 }

theorem claim1_witness :
    is_locked 60 acctTwoFails = false ∧
    checkPassword acctTwoFails "wrong" = false ∧
    loginStep 60 acctTwoFails "wrong" = (.badCreds, acctLockedAt60) :=
  ⟨by decide, by decide,
   (claim1_wrong_password_update 60 acctTwoFails "wrong"
      (by decide) (by decide)).trans (by decide)⟩

/-- C2: while `lock_until` is set and in the future every login attempt —
with a correct password included — is rejected with the remaining-seconds
message and leaves the account record unchanged; in particular after three
consecutive wrong-password attempts inside the 60-second decay window, a
fourth attempt within the following 60 seconds is rejected regardless of the
password supplied. -/
theorem claim2_locked_rejects_all :
    (∀ (now : Int) (u : Account) (pw : String), is_locked now u = true →
        loginStep now u pw = (.locked ((u.lock_until.getD 0) - now), u)) ∧
    (∀ (t1 t2 t3 t4 : Int) (u0 : Account) (p1 p2 p3 p4 : String),
        is_locked t1 u0 = false → u0.failed_attempts = 0 →
        checkPassword u0 p1 = false → checkPassword u0 p2 = false →
        checkPassword u0 p3 = false →
        t1 ≤ t2 → t2 ≤ t3 → t2 - t1 ≤ 60 → t3 - t2 ≤ 60 → t3 ≤ t4 → t4 < t3 + 60 →
        (loginStep t3 (loginStep t2 (loginStep t1 u0 p1).2 p2).2 p3).2.lock_until
            = some (t3 + 60) ∧
        loginStep t4 (loginStep t3 (loginStep t2 (loginStep t1 u0 p1).2 p2).2 p3).2 p4 =
          (.locked (t3 + 60 - t4),
           (loginStep t3 (loginStep t2 (loginStep t1 u0 p1).2 p2).2 p3).2)) := by
  constructor
  · intro now u pw hl
    unfold loginStep
    simp only [hl, if_true]
  · intro t1 t2 t3 t4 u0 p1 p2 p3 p4 hl0 hfa0 hp1 hp2 hp3 h12 h23 hw12 hw23 h34 h4lt
    have hu1 : (loginStep t1 u0 p1).2 =
        { u0 with failed_attempts := 1, last_failed_at := some t1 } := by
      simp [loginStep, hl0, hp1, record_failed_of_zero t1 u0 hfa0]
    rw [hu1]
    have hlA : is_locked t2 { u0 with failed_attempts := 1, last_failed_at := some t1 }
        = false := is_locked_mono t1 t2 u0 _ hl0 h12 rfl
    have hpA : checkPassword { u0 with failed_attempts := 1, last_failed_at := some t1 } p2
        = false := hp2
    have hu2 : (loginStep t2 { u0 with failed_attempts := 1, last_failed_at := some t1 } p2).2
        = { u0 with failed_attempts := 2, last_failed_at := some t2 } := by
      simp [loginStep, hlA, hpA]
      rw [record_failed_of_one t2 t1 _ rfl rfl (by omega)]
    rw [hu2]
    have hlB : is_locked t3 { u0 with failed_attempts := 2, last_failed_at := some t2 }
        = false := is_locked_mono t1 t3 u0 _ hl0 (by omega) rfl
    have hpB : checkPassword { u0 with failed_attempts := 2, last_failed_at := some t2 } p3
        = false := hp3
    have hu3 : (loginStep t3 { u0 with failed_attempts := 2, last_failed_at := some t2 } p3).2
        = { u0 with failed_attempts := 0, last_failed_at := some t3,
                    lock_until := some (t3 + 60) } := by
      simp [loginStep, hlB, hpB]
      rw [record_failed_of_two t3 t2 _ rfl rfl (by omega)]
    rw [hu3]
    have hlC : is_locked t4 { u0 with failed_attempts := 0, last_failed_at := some t3,
                                      lock_until := some (t3 + 60) } = true := by
      simp [is_locked, h4lt]
    refine ⟨rfl, ?_⟩
    simp [loginStep, hlC]

theorem claim2_witness :
    (loginStep 20 (loginStep 10 (loginStep 0 acctA "w").2 "w").2 "w").2.lock_until = some 80 ∧
    loginStep 30 (loginStep 20 (loginStep 10 (loginStep 0 acctA "w").2 "w").2 "w").2 "pass123" =
      (.locked 50,
       (loginStep 20 (loginStep 10 (loginStep 0 acctA "w").2 "w").2 "w").2) := by
  have h := claim2_locked_rejects_all.2 0 10 20 30 acctA "w" "w" "w" "pass123"
    (by decide) (by decide) (by decide) (by decide) (by decide)
    (by decide) (by decide) (by decide) (by decide) (by decide) (by decide)
  exact ⟨by simpa using h.1, by simpa using h.2⟩

/-- C7: a correct-password attempt while the account is not locked — which
includes the case of an expired `lock_until` — succeeds: it resets
`failed_attempts` to 0, clears `last_failed_at` and `lock_until`, and
establishes an authenticated session for the account. -/
theorem claim7_correct_password_resets (now : Int) (u : Account) (pw : String)
    (hlock : is_locked now u = false) (hpw : checkPassword u pw = true) :
    loginStep now u pw =
      (.success u.id u.role,
       { u with failed_attempts := 0, last_failed_at := none, lock_until := none }) := by
  simp [loginStep, clear_failed_login, hlock, hpw]

/-- `acctA` with an expired lock (the lock window ended at time 5). -/
def acctExpiredLock : Account :=
  { acctA with failed_attempts := 2, last_failed_at := some 3, lock_until := some 5 }

theorem claim7_witness :
    is_locked 10 acctExpiredLock = false ∧
    loginStep 10 acctExpiredLock "pass123" = (.success 1 "student", acctA) :=
  ⟨by decide,
   (claim7_correct_password_resets 10 acctExpiredLock "pass123"
      (by decide) (by decide)).trans (by decide)⟩

/-! ## The session-only login route of auth.py -/

/-- Outcome of the `/login` route of `auth.py`. -/
inductive AuthOutcome where
  /-- flash "Vui lòng nhập đầy đủ thông tin." -/
  | missingInfo
  /-- flash "Sai tài khoản hoặc mật khẩu." -/
  | badCreds
  /-- `login_user(user)`: an authenticated session is established -/
  | success (uid : Nat)
deriving Repr, DecidableEq

/-- The lookup filter of the `auth.py` login route:
`(Student.email == identifier) | (Student.ma_sv == identifier)`. -/
def authPred (ident : String) (u : Account) : Bool :=
  u.email = ident ∨ u.ma_sv = ident

/-- The POST branch of the `/login` route of `auth.py` (lines 48-77):
strip identifier and password, reject empty input, look up the account by
`authPred`, check the password, and log the user in.  The route performs no
lock check and no database write; the store is passed through untouched. -/
def authLogin (store : List Account) (identifier password : String) :
    AuthOutcome × List Account :=
  let ident := pyStrip identifier
  let pw := pyStrip password
  if ident = "" ∨ pw = "" then
    (.missingInfo, store)
  else
    match store.find? (authPred ident) with
    | none => (.badCreds, store)
    | some u =>
        if checkPassword u pw then (.success u.id, store) else (.badCreds, store)

/-- C3: the `auth.py` login route neither reads nor writes the lockout
state: the store — hence `failed_attempts`, `last_failed_at` and
`lock_until` of every account — is returned unchanged by every attempt,
wrong-password attempts included, and a correct-password attempt
establishes an authenticated session even for an account whose
`lock_until` lies in the future. -/
theorem claim3_auth_login_ignores_lockout :
    (∀ (store : List Account) (identifier password : String),
        (authLogin store identifier password).2 = store) ∧
    (∀ (now : Int) (store : List Account) (identifier password : String) (u : Account),
        store.find? (authPred (pyStrip identifier)) = some u →
        pyStrip identifier ≠ "" → pyStrip password ≠ "" →
        checkPassword u (pyStrip password) = true →
        is_locked now u = true →
        (authLogin store identifier password).1 = .success u.id) := by
  constructor
  · intro store identifier password
    unfold authLogin
    by_cases h0 : pyStrip identifier = "" ∨ pyStrip password = ""
    · simp [h0]
    · simp only [h0, if_false]
      cases h : store.find? (authPred (pyStrip identifier)) with
      | none => simp [h]
      | some u =>
          simp only [h]
          by_cases hc : checkPassword u (pyStrip password) = true <;> simp [hc]
  · intro now store identifier password u hfind hid hpw hchk _hlock
    unfold authLogin
    simp [hid, hpw, hfind, hchk]

/-- A locked account (lock active until time 120) for the C3 witness. -/
def acctLockedStore : List Account := [acctLockedAt60]

theorem claim3_witness :
    (authLogin acctLockedStore "SV001" "pass123").2 = acctLockedStore ∧
    is_locked 100 acctLockedAt60 = true ∧
    (authLogin acctLockedStore "SV001" "pass123").1 = .success 1 :=
  ⟨claim3_auth_login_ignores_lockout.1 acctLockedStore "SV001" "pass123",
   by decide,
   claim3_auth_login_ignores_lockout.2 100 acctLockedStore "SV001" "pass123" acctLockedAt60
     (by decide) (by decide) (by decide) (by decide) (by decide)⟩

/-! ## Grade validation (admin_routes.py and manager_routes.py) -/

/-- Python float values as observed by the grade-score validation:
`float(score_raw)` may produce a finite value, an infinity, or NaN
(for example `float("nan")`). -/
inductive PyFloat where
  | nan
  | inf
  | ninf
  | fin (q : ℚ)
deriving Repr, DecidableEq

/-- The `<` comparison on Python floats; every comparison against NaN is
false, and the infinities compare as usual. -/
def pfLt : PyFloat → PyFloat → Bool
  | .nan, _ => false
  | _, .nan => false
  | .ninf, .ninf => false
  | .ninf, _ => true
  | _, .ninf => false
  | .inf, _ => false
  | .fin _, .inf => true
  | .fin a, .fin b => a < b

/-- Python `str.isdigit()` for ASCII digits. -/
def pyIsDigit (s : String) : Bool :=
  !s.data.isEmpty && s.data.all Char.isDigit

/-- Python `int()` on a digit string. -/
def digitsToNat (s : String) : Nat :=
  s.data.foldl (fun n c => n * 10 + (c.toNat - 48)) 0

/-- One row of the `grades` table (`models.py`, class `Grade`). -/
structure Grade where
  id : Nat
  student_id : Nat
  subject_id : Nat
  exam_id : Nat
  score : PyFloat
  note : Option String
deriving Repr, DecidableEq

/-- Outcome of a grade create/edit request. -/
inductive GradeOutcome where
  /-- flash "Vui lòng chọn Sinh viên / Môn / Kỳ thi hợp lệ." -/
  | invalidSelection
  /-- `float(score_raw)` raised: flash "Điểm không hợp lệ (phải là số)." -/
  | invalidNumber
  /-- flash "Điểm phải nằm trong khoảng 0 - 10." -/
  | outOfRange
  /-- flash: a grade already exists for this (student, subject, exam) -/
  | duplicate
  /-- committed -/
  | saved
  /-- abort(404) -/
  | notFound
deriving Repr, DecidableEq

/-- The POST branch of `admin_grade_create` (`admin_routes.py` lines
516-566) and of `manager_grade_create` (`manager_routes.py` lines 440-495),
whose validation and insert logic are identical: digit check on the three
ids, float conversion of the score (`score` below is the conversion result,
`none` when `float()` raised), the range check `score < 0 or score > 10`,
the duplicate check on (student, subject, exam), then insert and commit. -/
def gradeCreate (grades : List Grade) (student_id subject_id exam_id : String)
    (score : Option PyFloat) (note : String) : GradeOutcome × List Grade :=
  if !(pyIsDigit student_id && pyIsDigit subject_id && pyIsDigit exam_id) then
    (.invalidSelection, grades)
  else
    match score with
    | none => (.invalidNumber, grades)
    | some sc =>
      if pfLt sc (.fin 0) || pfLt (.fin 10) sc then
        (.outOfRange, grades)
      else
        let sid := digitsToNat student_id
        let sub := digitsToNat subject_id
        let ex := digitsToNat exam_id
        if (grades.find? (fun g =>
              g.student_id = sid ∧ g.subject_id = sub ∧ g.exam_id = ex)).isSome then
          (.duplicate, grades)
        else
          let nid := (grades.map (fun g => g.id)).foldr max 0 + 1
          (.saved, grades ++ [⟨nid, sid, sub, ex, sc, if note = "" then none else some note⟩])

/-- The POST branch of `admin_grade_edit` (`admin_routes.py` lines 569-625)
and of `manager_grade_edit` (`manager_routes.py` lines 498-560), identical
logic: 404 when the grade id is unknown, the same id/score validation as
create, a duplicate check that excludes the edited row, then in-place
update and commit. -/
def gradeEdit (grades : List Grade) (grade_id : Nat) (student_id subject_id exam_id : String)
    (score : Option PyFloat) (note : String) : GradeOutcome × List Grade :=
  match grades.find? (fun g => g.id = grade_id) with
  | none => (.notFound, grades)
  | some g0 =>
    if !(pyIsDigit student_id && pyIsDigit subject_id && pyIsDigit exam_id) then
      (.invalidSelection, grades)
    else
      match score with
      | none => (.invalidNumber, grades)
      | some sc =>
        if pfLt sc (.fin 0) || pfLt (.fin 10) sc then
          (.outOfRange, grades)
        else
          let sid := digitsToNat student_id
          let sub := digitsToNat subject_id
          let ex := digitsToNat exam_id
          if (grades.find? (fun g =>
                g.student_id = sid ∧ g.subject_id = sub ∧ g.exam_id = ex ∧
                g.id ≠ g0.id)).isSome then
            (.duplicate, grades)
          else
            (.saved, updateFirst (fun g => g.id = grade_id)
              (fun g => { g with student_id := sid, subject_id := sub, exam_id := ex,
                                 score := sc, note := if note = "" then none else some note })
              grades)

/-- The range the data model promises for stored scores: a stored score lies
in the closed interval [0, 10].  NaN and the infinities are outside it. -/
def scoreInRange : PyFloat → Bool
  | .fin q => decide (0 ≤ q ∧ q ≤ 10)
  | _ => false

/-- C10 [code bug]: the guard `score < 0 or score > 10` correctly rejects
every finite score outside [0, 10] (first two conjuncts), but `float("nan")`
parses to NaN, which is neither below 0 nor above 10, so the guard passes
and a grade whose score violates the [0, 10] invariant is stored — by
create and by edit alike (remaining conjuncts). -/
theorem claim10_nan_escapes_range_check :
    gradeCreate [] "1" "2" "3" (some (.fin 11)) "" = (.outOfRange, []) ∧
    gradeCreate [] "1" "2" "3" (some (.fin (-1))) "" = (.outOfRange, []) ∧
    (pfLt PyFloat.nan (.fin 0) || pfLt (.fin 10) PyFloat.nan) = false ∧
    gradeCreate [] "1" "2" "3" (some .nan) "" = (.saved, [⟨1, 1, 2, 3, .nan, none⟩]) ∧
    gradeEdit [⟨1, 1, 2, 3, .fin 5, none⟩] 1 "1" "2" "3" (some .nan) "" =
      (.saved, [⟨1, 1, 2, 3, .nan, none⟩]) ∧
    scoreInRange .nan = false := by
  refine ⟨?_, ?_, by decide, by decide, by decide, by decide⟩ <;> decide

/-! ## Roster import/export reconciliation -/

/-- `_norm_cell` (`admin_routes.py` lines 41-44, `app.py` lines 162-165):
an absent cell becomes the empty string, other cells are stripped. -/
def normCell : Option String → String
  | none => ""
  | some s => pyStrip s

/-- `EXPORT_HEADERS` (`admin_routes.py` line 32, `app.py` line 600). -/
def EXPORT_HEADERS : List String :=
  ["Mã SV", "Tên", "Email", "Mật khẩu", "Giới tính", "Địa chỉ"]

/-- The dict comprehension building `col_index`: each nonempty normalized
header name maps to the index of its last occurrence (a later dict entry
overwrites an earlier one); `colIndexFrom i` handles the headers starting
at index `i`. -/
def colIndexFrom (i : Nat) : List String → String → Option Nat
  | [], _ => none
  | h :: rest, name =>
      match colIndexFrom (i + 1) rest name with
      | some j => some j
      | none => if h = name ∧ h ≠ "" then some i else none

/-- `col_index` as a lookup function. -/
def colIndex (headers : List String) (name : String) : Option Nat :=
  colIndexFrom 0 headers name

/-- `row[col_index[name]] if col_index[name] < len(row) else None` — the
guarded cell access of both import loops (the `none` arm of the outer match
is the missing-key case, which the header check has already ruled out). -/
def cellOf (cols : String → Option Nat) (name : String)
    (row : List (Option String)) : Option String :=
  match cols name with
  | some i => row.getD i none
  | none => none

/-- The six normalized values read from one import row
(`admin_routes.py` lines 1031-1036, `app.py` lines 649-654). -/
structure RowData where
  ma_sv : String
  ten_sv : String
  email : String
  mat_khau_plain : String
  gioi_tinh : String
  dia_chi : String
deriving Repr, DecidableEq

/-- Read and normalize the six cells of a row; the email is lowercased. -/
def readRow (cols : String → Option Nat) (row : List (Option String)) : RowData :=
  { ma_sv := normCell (cellOf cols "Mã SV" row),
    ten_sv := normCell (cellOf cols "Tên" row),
    email := pyLower (normCell (cellOf cols "Email" row)),
    mat_khau_plain := normCell (cellOf cols "Mật khẩu" row),
    gioi_tinh := normCell (cellOf cols "Giới tính" row),
    dia_chi := normCell (cellOf cols "Địa chỉ" row) }

/-- Loop state of an import: the buffered session store, the id the next
created account will receive, the two counters, and how many random
passwords have been drawn so far. -/
structure ImpState where
  store : List Account
  nextId : Nat
  added : Nat
  skipped : Nat
  rng : Nat
deriving Repr, DecidableEq

/-- `Student(ma_sv=...)`: a freshly constructed account carrying the column
defaults of `models.py` (`role="student"`, `failed_attempts=0`); its other
fields are assigned immediately after construction by the import loop. -/
def blankStudent (id : Nat) (ma : String) : Account :=
  { id := id, ma_sv := ma, ten_sv := "", email := "", mat_khau := "",
    role := "student", gioi_tinh := none, dia_chi := none,
    failed_attempts := 0, last_failed_at := none, lock_until := none }

/-- The field overwrite of the admin import row loop (`admin_routes.py`
lines 1061-1067): all six mutable fields are set and the role is forced to
the student category. -/
def applyRowAdmin (r : RowData) (hashed : String) (sv : Account) : Account :=
  { sv with ma_sv := r.ma_sv, ten_sv := r.ten_sv, email := r.email,
            mat_khau := hashed,
            gioi_tinh := if r.gioi_tinh = "" then none else some r.gioi_tinh,
            dia_chi := if r.dia_chi = "" then none else some r.dia_chi,
            role := "student" }

/-- The field overwrite of the legacy import row loop (`app.py` lines
673-678): the same fields, but the role is left untouched. -/
def applyRowApp (r : RowData) (hashed : String) (sv : Account) : Account :=
  { sv with ma_sv := r.ma_sv, ten_sv := r.ten_sv, email := r.email,
            mat_khau := hashed,
            gioi_tinh := if r.gioi_tinh = "" then none else some r.gioi_tinh,
            dia_chi := if r.dia_chi = "" then none else some r.dia_chi }

/-- One iteration of the admin import row loop (`admin_routes.py` lines
1030-1067): skip on empty identifier/name/email, skip on a bad identifier
pattern, draw a random password when the cell is empty, then resolve the
target account by identifier, else by email, else create it. -/
def processRowAdmin (gen : Nat → String) (cols : String → Option Nat)
    (st : ImpState) (row : List (Option String)) : ImpState :=
  let r := readRow cols row
  if r.ma_sv = "" || r.ten_sv = "" || r.email = "" then
    { st with skipped := st.skipped + 1 }
  else if !maSvPattern r.ma_sv then
    { st with skipped := st.skipped + 1 }
  else
    let pr := if r.mat_khau_plain = "" then (gen st.rng, st.rng + 1)
              else (r.mat_khau_plain, st.rng)
    let hashed := hashPw pr.1
    if (st.store.find? (fun a => a.ma_sv = r.ma_sv)).isSome then
      { st with store := updateFirst (fun a => a.ma_sv = r.ma_sv)
                  (applyRowAdmin r hashed) st.store,
                rng := pr.2 }
    else if (st.store.find? (fun a => a.email = r.email)).isSome then
      { st with store := updateFirst (fun a => a.email = r.email)
                  (applyRowAdmin r hashed) st.store,
                rng := pr.2 }
    else
      { st with store := st.store ++ [applyRowAdmin r hashed (blankStudent st.nextId r.ma_sv)],
                nextId := st.nextId + 1, added := st.added + 1, rng := pr.2 }

/-- One iteration of the legacy import row loop (`app.py` lines 648-678):
identical guards, but the resolution is by identifier only — a row whose
identifier is unknown creates a new account even when the email matches an
existing one — and the role is not forced. -/
def processRowApp (gen : Nat → String) (cols : String → Option Nat)
    (st : ImpState) (row : List (Option String)) : ImpState :=
  let r := readRow cols row
  if r.ma_sv = "" || r.ten_sv = "" || r.email = "" then
    { st with skipped := st.skipped + 1 }
  else if !maSvPattern r.ma_sv then
    { st with skipped := st.skipped + 1 }
  else
    let pr := if r.mat_khau_plain = "" then (gen st.rng, st.rng + 1)
              else (r.mat_khau_plain, st.rng)
    let hashed := hashPw pr.1
    if (st.store.find? (fun a => a.ma_sv = r.ma_sv)).isSome then
      { st with store := updateFirst (fun a => a.ma_sv = r.ma_sv)
                  (applyRowApp r hashed) st.store,
                rng := pr.2 }
    else
      { st with store := st.store ++ [applyRowApp r hashed (blankStudent st.nextId r.ma_sv)],
                nextId := st.nextId + 1, added := st.added + 1, rng := pr.2 }

/-- Modelled from the store (`models.py` unique constraints on `ma_sv` and
`email`): a commit succeeds exactly when both columns are duplicate-free;
the transaction applies all buffered changes or none. -/
def commitOk (store : List Account) : Bool :=
  (store.map (fun a => a.ma_sv)).Nodup ∧ (store.map (fun a => a.email)).Nodup

/-- Autoincrement: the id handed to the next inserted account. -/
def nextFreeId (store : List Account) : Nat :=
  (store.map (fun a => a.id)).foldr max 0 + 1

/-- Result of an import request. -/
inductive ImportResult where
  /-- the worksheet had no header row: `next(ws.iter_rows(...))` raised -/
  | loadError
  /-- flash "File thiếu cột: ..." and return before any data row is read -/
  | headerError (missing : List String)
  /-- the batch committed: the persisted store and the two counters -/
  | committed (store : List Account) (added skipped : Nat)
  /-- the commit was rejected and the `IntegrityError` propagated out of
  the route (the admin import has no handler): an unhandled server error,
  the persisted store unchanged -/
  | rejectedUnhandled (store : List Account)
  /-- the commit was rejected, the route rolled back and flashed one
  failure message ("Import lỗi do trùng Mã SV/Email (unique)...");
  the persisted store unchanged -/
  | rejectedReported (store : List Account)
deriving Repr, DecidableEq

/-- `admin_students_import`, POST branch (`admin_routes.py` lines
1004-1071).  Note the bare `db.session.commit()` on line 1069: a rejected
commit is not caught by this route. -/
def adminStudentsImport (gen : Nat → String) (store : List Account)
    (file : List (List (Option String))) : ImportResult :=
  match file with
  | [] => .loadError
  | header :: dataRows =>
    let headers := header.map normCell
    let cols := colIndex headers
    let missing := EXPORT_HEADERS.filter (fun h => (cols h).isNone)
    if missing ≠ [] then
      .headerError missing
    else
      let res := dataRows.foldl (processRowAdmin gen cols)
        { store := store, nextId := nextFreeId store, added := 0, skipped := 0, rng := 0 }
      if commitOk res.store then .committed res.store res.added res.skipped
      else .rejectedUnhandled store

/-- `students_import`, POST branch (`app.py` lines 625-688): same header
check and loop shape, no email fallback and no role forcing, and the commit
sits in `try/except IntegrityError` with `rollback()` and a flashed single
failure message (lines 680-685). -/
def appStudentsImport (gen : Nat → String) (store : List Account)
    (file : List (List (Option String))) : ImportResult :=
  match file with
  | [] => .loadError
  | header :: dataRows =>
    let headers := header.map normCell
    let cols := colIndex headers
    let missing := EXPORT_HEADERS.filter (fun h => (cols h).isNone)
    if missing ≠ [] then
      .headerError missing
    else
      let res := dataRows.foldl (processRowApp gen cols)
        { store := store, nextId := nextFreeId store, added := 0, skipped := 0, rng := 0 }
      if commitOk res.store then .committed res.store res.added res.skipped
      else .rejectedReported store

/-- One exported worksheet row for the account at export index `i`
(`ws.append([...])`, `admin_routes.py` lines 985-987, `app.py` line 611):
the password cell is the freshly drawn random password, never the stored
hash. -/
def exportRow (gen : Nat → String) (i : Nat) (s : Account) : List String :=
  [s.ma_sv, s.ten_sv, s.email, gen i, s.gioi_tinh.getD "", s.dia_chi.getD ""]

/-- `admin_students_export` (`admin_routes.py` lines 979-998): the header
row plus one row per `role == "student"` account in id order; `gen` is the
stream of `_random_password(10)` draws.  The route writes nothing, so the
store is returned untouched. -/
def adminStudentsExport (gen : Nat → String) (store : List Account) :
    List (List String) × List Account :=
  (EXPORT_HEADERS ::
     ((store.filter (fun s => s.role = "student")).enum.map
        (fun p => exportRow gen p.1 p.2)),
   store)

/-- `students_export` (`app.py` lines 602-621): identical shape, but every
account is exported regardless of its role. -/
def appStudentsExport (gen : Nat → String) (store : List Account) :
    List (List String) × List Account :=
  (EXPORT_HEADERS :: (store.enum.map (fun p => exportRow gen p.1 p.2)), store)

/-- An exported worksheet re-read as import input: every written cell is
read back as a present string cell. -/
def asImportFile (rows : List (List String)) : List (List (Option String)) :=
  rows.map (fun r => r.map some)

/-- Erase every stored password hash (used to state that the export output
does not depend on them). -/
def scrubHashes (store : List Account) : List Account :=
  store.map (fun a => { a with mat_khau := "" })

/-- Spec-side description of export followed by import: every student-role
account keeps all its fields except that its password hash becomes the hash
of the freshly generated password of its export row; every other account is
untouched. -/
def rotF (gen : Nat → String) (store : List Account) (a : Account) : Account :=
  match ((store.filter (fun s => s.role = "student")).enum).find?
      (fun p => p.2.ma_sv = a.ma_sv) with
  | some p => { a with mat_khau := hashPw (gen p.1) }
  | none => a

/-- The whole store after the export/import round trip, per the spec. -/
def rotated (gen : Nat → String) (store : List Account) : List Account :=
  store.map (rotF gen store)

/-! ## Helper lemmas for the import/export reconciliation -/

lemma updateFirst_length {α : Type} (p : α → Bool) (f : α → α) (l : List α) :
    (updateFirst p f l).length = l.length := by
  induction l with
  | nil => rfl
  | cons a l ih =>
      unfold updateFirst
      split <;> simp [ih]

lemma colIndexFrom_none_of_not_mem (headers : List String) (name : String)
    (h : name ∉ headers) (i : Nat) : colIndexFrom i headers name = none := by
  induction headers generalizing i with
  | nil => rfl
  | cons a l ih =>
      have h1 : ¬ (a = name) := fun e => h (by simp [e])
      have h2 : name ∉ l := fun m => h (by simp [m])
      unfold colIndexFrom
      rw [ih h2 (i + 1)]
      simp [h1]

lemma colIndex_none_of_not_mem (headers : List String) (name : String)
    (h : name ∉ headers) : colIndex headers name = none :=
  colIndexFrom_none_of_not_mem headers name h 0

/-- The string of a satisfied identifier pattern is nonempty. -/
lemma maSvPattern_ne_empty (s : String) (h : maSvPattern s = true) : s ≠ "" := by
  intro he
  subst he
  simp [maSvPattern] at h

/-- The skip condition of both import row loops, as one boolean. -/
def rowSkipCond (r : RowData) : Bool :=
  r.ma_sv = "" || r.ten_sv = "" || r.email = "" || !maSvPattern r.ma_sv

/-- The (added, skipped) counters of a committed import. -/
def countsOf : ImportResult → Option (Nat × Nat)
  | .committed _ a s => some (a, s)
  | _ => none

/-- Does the route flash the single rolled-back-failure message? -/
def isReportedFailure : ImportResult → Bool
  | .rejectedReported _ => true
  | _ => false

/-- A concrete random-password stream for the witnesses. -/
def gen0 : Nat → String := fun _ => "Np1"

/-- `col_index` of a file whose header row is exactly `EXPORT_HEADERS`. -/
def colsStd : String → Option Nat := colIndex EXPORT_HEADERS

/-- The spec example file: one valid row, and one row whose identifier
contains a space and an exclamation mark. -/
def exampleFile : List (List (Option String)) :=
  [EXPORT_HEADERS.map some,
   [some "SV001", some "Nguyen Van A", some "a@x.com", some "pass123", some "Nam", some "HN"],
   [some "bad id!", some "B", some "b@x.com", none, none, none]]

/-- The import loop state at the start of a run against `store`. -/
def initState (store : List Account) : ImpState :=
  { store := store, nextId := nextFreeId store, added := 0, skipped := 0, rng := 0 }

/-! ## Claim theorems: import validation -/

/-- C9: whenever at least one of the six required header names is absent
from the normalized first row — whatever the order of the present columns,
since headers are resolved through the name-to-index map — both import
routes fail the whole operation with the missing-columns message, before
any data row is processed and without touching the store. -/
theorem claim9_missing_header_fails_import
    (gen : Nat → String) (store : List Account) (header : List (Option String))
    (dataRows : List (List (Option String))) (name : String)
    (hmem : name ∈ EXPORT_HEADERS) (habsent : name ∉ header.map normCell) :
    adminStudentsImport gen store (header :: dataRows) =
      .headerError (EXPORT_HEADERS.filter
        (fun h => (colIndex (header.map normCell) h).isNone)) ∧
    appStudentsImport gen store (header :: dataRows) =
      .headerError (EXPORT_HEADERS.filter
        (fun h => (colIndex (header.map normCell) h).isNone)) ∧
    EXPORT_HEADERS.filter (fun h => (colIndex (header.map normCell) h).isNone) ≠ [] := by
  have hcol : colIndex (header.map normCell) name = none :=
    colIndex_none_of_not_mem _ _ habsent
  have hfmem : name ∈ EXPORT_HEADERS.filter
      (fun h => (colIndex (header.map normCell) h).isNone) := by
    rw [List.mem_filter]
    exact ⟨hmem, by simp [hcol]⟩
  have hne : EXPORT_HEADERS.filter
      (fun h => (colIndex (header.map normCell) h).isNone) ≠ [] :=
    List.ne_nil_of_mem hfmem
  refine ⟨?_, ?_, hne⟩
  · unfold adminStudentsImport
    dsimp only
    rw [if_pos hne]
  · unfold appStudentsImport
    dsimp only
    rw [if_pos hne]

/-- A header row missing the password column (and in scrambled order). -/
def headerMissingPw : List (Option String) :=
  [some "Email", some "Tên", some "Mã SV", some "Giới tính", some "Địa chỉ"]

theorem claim9_witness :
    "Mật khẩu" ∈ EXPORT_HEADERS ∧
    "Mật khẩu" ∉ headerMissingPw.map normCell ∧
    adminStudentsImport gen0 [] (headerMissingPw :: []) =
      .headerError ["Mật khẩu"] := by
  refine ⟨by decide, by decide, ?_⟩
  have h := claim9_missing_header_fails_import gen0 [] headerMissingPw [] "Mật khẩu"
    (by decide) (by decide)
  exact h.1.trans (by decide)

/-- A skipped row updates only the `skipped` counter. -/
lemma processRowAdmin_skip (gen : Nat → String) (cols : String → Option Nat)
    (st : ImpState) (row : List (Option String))
    (h : rowSkipCond (readRow cols row) = true) :
    processRowAdmin gen cols st row = { st with skipped := st.skipped + 1 } := by
  by_cases hA : (readRow cols row).ma_sv = ""
  · simp [processRowAdmin, hA]
  by_cases hB : (readRow cols row).ten_sv = ""
  · simp [processRowAdmin, hB]
  by_cases hC : (readRow cols row).email = ""
  · simp [processRowAdmin, hC]
  have hk : maSvPattern (readRow cols row).ma_sv = false := by
    unfold rowSkipCond at h
    simp [hA, hB, hC] at h
    exact h
  simp [processRowAdmin, hA, hB, hC, hk]

/-- A row that is not skipped leaves the `skipped` counter unchanged. -/
lemma processRowAdmin_noskip (gen : Nat → String) (cols : String → Option Nat)
    (st : ImpState) (row : List (Option String))
    (h : rowSkipCond (readRow cols row) = false) :
    (processRowAdmin gen cols st row).skipped = st.skipped := by
  unfold rowSkipCond at h
  simp only [Bool.or_eq_false_iff, decide_eq_false_iff_not] at h
  unfold processRowAdmin
  dsimp only
  split
  · rename_i hcond
    exfalso
    simp [h.1.1.1, h.1.1.2, h.1.2] at hcond
  · split
    · rename_i hcond
      exfalso
      rw [h.2] at hcond
      exact Bool.false_ne_true hcond
    · split <;> first | rfl | (split <;> rfl)

lemma processRowApp_skip (gen : Nat → String) (cols : String → Option Nat)
    (st : ImpState) (row : List (Option String))
    (h : rowSkipCond (readRow cols row) = true) :
    processRowApp gen cols st row = { st with skipped := st.skipped + 1 } := by
  by_cases hA : (readRow cols row).ma_sv = ""
  · simp [processRowApp, hA]
  by_cases hB : (readRow cols row).ten_sv = ""
  · simp [processRowApp, hB]
  by_cases hC : (readRow cols row).email = ""
  · simp [processRowApp, hC]
  have hk : maSvPattern (readRow cols row).ma_sv = false := by
    unfold rowSkipCond at h
    simp [hA, hB, hC] at h
    exact h
  simp [processRowApp, hA, hB, hC, hk]

lemma processRowApp_noskip (gen : Nat → String) (cols : String → Option Nat)
    (st : ImpState) (row : List (Option String))
    (h : rowSkipCond (readRow cols row) = false) :
    (processRowApp gen cols st row).skipped = st.skipped := by
  unfold rowSkipCond at h
  simp only [Bool.or_eq_false_iff, decide_eq_false_iff_not] at h
  unfold processRowApp
  dsimp only
  split
  · rename_i hcond
    exfalso
    simp [h.1.1.1, h.1.1.2, h.1.2] at hcond
  · split
    · rename_i hcond
      exfalso
      rw [h.2] at hcond
      exact Bool.false_ne_true hcond
    · split <;> rfl

/-- C8: in both import routes a data row is skipped — counted in `skipped`
with the store and the `added` count untouched, and without aborting the
run — exactly when, after normalization, its identifier, name, or email is
the empty string, or its identifier fails the pattern [A-Za-z0-9_-]+; and
the spec example (one valid row, one row with identifier "bad id!") commits
with `added = 1`, `skipped = 1`. -/
theorem claim8_row_skip_characterization :
    (∀ (gen : Nat → String) (cols : String → Option Nat) (st : ImpState)
        (row : List (Option String)),
      (processRowAdmin gen cols st row = { st with skipped := st.skipped + 1 } ↔
        rowSkipCond (readRow cols row) = true) ∧
      (processRowApp gen cols st row = { st with skipped := st.skipped + 1 } ↔
        rowSkipCond (readRow cols row) = true)) ∧
    countsOf (adminStudentsImport gen0 [] exampleFile) = some (1, 1) ∧
    countsOf (appStudentsImport gen0 [] exampleFile) = some (1, 1) := by
  refine ⟨?_, by decide, by decide⟩
  intro gen cols st row
  constructor
  · constructor
    · intro he
      by_contra hc
      rw [Bool.not_eq_true] at hc
      have hs := processRowAdmin_noskip gen cols st row hc
      rw [he] at hs
      simp at hs
    · exact processRowAdmin_skip gen cols st row
  · constructor
    · intro he
      by_contra hc
      rw [Bool.not_eq_true] at hc
      have hs := processRowApp_noskip gen cols st row hc
      rw [he] at hs
      simp at hs
    · exact processRowApp_skip gen cols st row

theorem claim8_witness :
    processRowAdmin gen0 colsStd (initState []) [some "bad id!", some "B", some "b@x.com"]
      = { initState [] with skipped := 1 } ∧
    rowSkipCond (readRow colsStd [some "bad id!", some "B", some "b@x.com"]) = true :=
  ⟨((claim8_row_skip_characterization.1 gen0 colsStd (initState [])
      [some "bad id!", some "B", some "b@x.com"]).1.mpr (by decide)).trans (by decide),
   by decide⟩

/-! ## Claim theorems: upsert resolution and commit atomicity -/

/-- The plaintext password used for a validated row: the password cell when
present, else the next random draw. -/
def importPlain (gen : Nat → String) (st : ImpState) (r : RowData) : String :=
  if r.mat_khau_plain = "" then gen st.rng else r.mat_khau_plain

/-- The random-draw counter after a validated row. -/
def importRng (st : ImpState) (r : RowData) : Nat :=
  if r.mat_khau_plain = "" then st.rng + 1 else st.rng

/-- Closed form of the admin row loop on a validated row. -/
lemma processRowAdmin_valid (gen : Nat → String) (cols : String → Option Nat)
    (st : ImpState) (row : List (Option String))
    (h : rowSkipCond (readRow cols row) = false) :
    processRowAdmin gen cols st row =
      (let r := readRow cols row
       let hashed := hashPw (importPlain gen st r)
       if (st.store.find? (fun a => a.ma_sv = r.ma_sv)).isSome then
         { st with store := updateFirst (fun a => a.ma_sv = r.ma_sv)
                     (applyRowAdmin r hashed) st.store,
                   rng := importRng st r }
       else if (st.store.find? (fun a => a.email = r.email)).isSome then
         { st with store := updateFirst (fun a => a.email = r.email)
                     (applyRowAdmin r hashed) st.store,
                   rng := importRng st r }
       else
         { st with store := st.store ++
                     [applyRowAdmin r hashed (blankStudent st.nextId r.ma_sv)],
                   nextId := st.nextId + 1, added := st.added + 1,
                   rng := importRng st r }) := by
  unfold rowSkipCond at h
  simp only [Bool.or_eq_false_iff, decide_eq_false_iff_not] at h
  unfold processRowAdmin importPlain importRng
  dsimp only
  split
  · rename_i hcond
    exfalso
    simp [h.1.1.1, h.1.1.2, h.1.2] at hcond
  · split
    · rename_i hcond
      exfalso
      rw [h.2] at hcond
      exact Bool.false_ne_true hcond
    · by_cases hp : (readRow cols row).mat_khau_plain = "" <;> simp [hp]

/-- Closed form of the legacy row loop on a validated row. -/
lemma processRowApp_valid (gen : Nat → String) (cols : String → Option Nat)
    (st : ImpState) (row : List (Option String))
    (h : rowSkipCond (readRow cols row) = false) :
    processRowApp gen cols st row =
      (let r := readRow cols row
       let hashed := hashPw (importPlain gen st r)
       if (st.store.find? (fun a => a.ma_sv = r.ma_sv)).isSome then
         { st with store := updateFirst (fun a => a.ma_sv = r.ma_sv)
                     (applyRowApp r hashed) st.store,
                   rng := importRng st r }
       else
         { st with store := st.store ++
                     [applyRowApp r hashed (blankStudent st.nextId r.ma_sv)],
                   nextId := st.nextId + 1, added := st.added + 1,
                   rng := importRng st r }) := by
  unfold rowSkipCond at h
  simp only [Bool.or_eq_false_iff, decide_eq_false_iff_not] at h
  unfold processRowApp importPlain importRng
  dsimp only
  split
  · rename_i hcond
    exfalso
    simp [h.1.1.1, h.1.1.2, h.1.2] at hcond
  · split
    · rename_i hcond
      exfalso
      rw [h.2] at hcond
      exact Bool.false_ne_true hcond
    · by_cases hp : (readRow cols row).mat_khau_plain = "" <;> simp [hp]

/-- A second student account. -/
def acctB : Account :=
  { id := 2, ma_sv := "SV002", ten_sv := "Tran Thi B", email := "b@x.com",
    mat_khau := hashPw "pw2", role := "student", gioi_tinh := none,
    dia_chi := none, failed_attempts := 0, last_failed_at := none,
    lock_until := none }

/-- A store holding the two student accounts. -/
def storeAB : List Account := [acctA, acctB]

/-- A valid import row whose identifier is unknown but whose email belongs
to the existing account `acctA`. -/
def rowNewIdOldEmail : List (Option String) :=
  [some "SV999", some "New Name", some "a@x.com", some "npw", some "", some ""]

/-- C4 counterexample: for the legacy import route (`app.py`
`students_import`, one of the two code locations the claim describes), a
valid row with an unknown identifier and the email of an existing account
is NOT resolved to that account by email: a brand-new account is appended
and counted in `added`, while the admin route resolves it in place. -/
theorem claim4_counterexample :
    (processRowApp gen0 colsStd (initState storeAB) rowNewIdOldEmail).added = 1 ∧
    (processRowApp gen0 colsStd (initState storeAB) rowNewIdOldEmail).store.length = 3 ∧
    (processRowAdmin gen0 colsStd (initState storeAB) rowNewIdOldEmail).added = 0 ∧
    (processRowAdmin gen0 colsStd (initState storeAB) rowNewIdOldEmail).store.length = 2 := by
  decide

/-- C4 (amended): in the ADMIN import route every validated row resolves
its target account in the order identifier, then email, then creation; a
row resolving to an existing account mutates it in place — the store length
and the `added` count are unchanged — and the resolved account gets name,
email, password hash, gender, address overwritten with its role forced to
"student"; only a row matching nothing appends a new account and is counted
in `added`.  In the LEGACY route (`app.py`) resolution is by identifier
only: a row with an unknown identifier is appended and counted even when
its email matches an existing account, and the role field is never
assigned. -/
theorem claim4_upsert_resolution (gen : Nat → String) (cols : String → Option Nat)
    (st : ImpState) (row : List (Option String))
    (hvalid : rowSkipCond (readRow cols row) = false) :
    ((st.store.find? (fun a => a.ma_sv = (readRow cols row).ma_sv)).isSome = true →
      processRowAdmin gen cols st row =
        { st with store := updateFirst (fun a => a.ma_sv = (readRow cols row).ma_sv)
                    (applyRowAdmin (readRow cols row)
                      (hashPw (importPlain gen st (readRow cols row)))) st.store,
                  rng := importRng st (readRow cols row) } ∧
      (processRowAdmin gen cols st row).added = st.added ∧
      (processRowAdmin gen cols st row).store.length = st.store.length) ∧
    ((st.store.find? (fun a => a.ma_sv = (readRow cols row).ma_sv)).isSome = false →
     (st.store.find? (fun a => a.email = (readRow cols row).email)).isSome = true →
      processRowAdmin gen cols st row =
        { st with store := updateFirst (fun a => a.email = (readRow cols row).email)
                    (applyRowAdmin (readRow cols row)
                      (hashPw (importPlain gen st (readRow cols row)))) st.store,
                  rng := importRng st (readRow cols row) } ∧
      (processRowAdmin gen cols st row).added = st.added ∧
      (processRowAdmin gen cols st row).store.length = st.store.length) ∧
    ((st.store.find? (fun a => a.ma_sv = (readRow cols row).ma_sv)).isSome = false →
     (st.store.find? (fun a => a.email = (readRow cols row).email)).isSome = false →
      processRowAdmin gen cols st row =
        { st with store := st.store ++
                    [applyRowAdmin (readRow cols row)
                      (hashPw (importPlain gen st (readRow cols row)))
                      (blankStudent st.nextId (readRow cols row).ma_sv)],
                  nextId := st.nextId + 1, added := st.added + 1,
                  rng := importRng st (readRow cols row) }) ∧
    (∀ (r : RowData) (hs : String) (a : Account),
      (applyRowAdmin r hs a).ten_sv = r.ten_sv ∧
      (applyRowAdmin r hs a).email = r.email ∧
      (applyRowAdmin r hs a).mat_khau = hs ∧
      (applyRowAdmin r hs a).role = "student" ∧
      (applyRowApp r hs a).role = a.role) ∧
    ((st.store.find? (fun a => a.ma_sv = (readRow cols row).ma_sv)).isSome = false →
      processRowApp gen cols st row =
        { st with store := st.store ++
                    [applyRowApp (readRow cols row)
                      (hashPw (importPlain gen st (readRow cols row)))
                      (blankStudent st.nextId (readRow cols row).ma_sv)],
                  nextId := st.nextId + 1, added := st.added + 1,
                  rng := importRng st (readRow cols row) }) := by
  have hA := processRowAdmin_valid gen cols st row hvalid
  have hP := processRowApp_valid gen cols st row hvalid
  dsimp only at hA hP
  refine ⟨?_, ?_, ?_, ?_, ?_⟩
  · intro hma
    rw [hA, if_pos hma]
    exact ⟨rfl, rfl, updateFirst_length _ _ _⟩
  · intro hma hem
    have heq : processRowAdmin gen cols st row =
        { st with store := updateFirst (fun a => a.email = (readRow cols row).email)
                    (applyRowAdmin (readRow cols row)
                      (hashPw (importPlain gen st (readRow cols row)))) st.store,
                  rng := importRng st (readRow cols row) } := by
      rw [hA, hma]
      simp only [Bool.false_eq_true, if_false, if_pos hem]
    exact ⟨heq, by rw [heq], by rw [heq]; exact updateFirst_length _ _ _⟩
  · intro hma hem
    rw [hA, hma, hem]
    simp only [Bool.false_eq_true, if_false]
  · intro r hs a
    exact ⟨rfl, rfl, rfl, rfl, rfl⟩
  · intro hma
    rw [hP, hma]
    simp only [Bool.false_eq_true, if_false]

theorem claim4_witness :
    (processRowAdmin gen0 colsStd (initState storeAB) rowNewIdOldEmail).added = 0 ∧
    (processRowAdmin gen0 colsStd (initState storeAB) rowNewIdOldEmail).store.length = 2 := by
  have h := claim4_upsert_resolution gen0 colsStd (initState storeAB) rowNewIdOldEmail
    (by decide)
  have h2 := h.2.1 (by decide) (by decide)
  exact ⟨h2.2.1.trans (by decide), h2.2.2.trans (by decide)⟩

/-- An import file whose single valid row matches `acctA` by identifier but
carries the email of `acctB`: committing the buffered update collides with
the email unique constraint. -/
def fileEmailCollision : List (List (Option String)) :=
  [EXPORT_HEADERS.map some,
   [some "SV001", some "Nguyen Van A", some "b@x.com", some "pw", some "", some ""]]

/-- C5 counterexample: on a uniqueness collision the admin import route
does not report the rejected commit as a failure — it has no
`IntegrityError` handler, so the rejection escapes as an unhandled server
error (the persisted store stays unchanged only because the single commit
is atomic). -/
theorem claim5_counterexample :
    adminStudentsImport gen0 storeAB fileEmailCollision =
      .rejectedUnhandled storeAB ∧
    isReportedFailure (adminStudentsImport gen0 storeAB fileEmailCollision) = false := by
  decide

/-- C5 (amended): both import routes write the batch in one atomic commit —
whenever the store rejects the commit the persisted store is exactly the
pre-import store, no account added or modified.  The legacy route catches
the rejection, rolls back and reports it as a single failure; the admin
route never produces such a report — its rejection propagates as an
unhandled error. -/
theorem claim5_atomic_commit (gen : Nat → String) (store : List Account)
    (file : List (List (Option String))) :
    (∀ s, adminStudentsImport gen store file = .rejectedUnhandled s → s = store) ∧
    (∀ s, appStudentsImport gen store file = .rejectedReported s → s = store) ∧
    (∀ s, adminStudentsImport gen store file ≠ .rejectedReported s) ∧
    (∀ s, appStudentsImport gen store file ≠ .rejectedUnhandled s) := by
  unfold adminStudentsImport appStudentsImport
  cases file with
  | nil => refine ⟨?_, ?_, ?_, ?_⟩ <;> intro s <;> simp
  | cons header dataRows =>
      dsimp only
      by_cases hmiss : (EXPORT_HEADERS.filter
          (fun h => (colIndex (header.map normCell) h).isNone)) ≠ []
      · rw [if_pos hmiss, if_pos hmiss]
        refine ⟨?_, ?_, ?_, ?_⟩ <;> intro s <;> simp
      · rw [if_neg hmiss, if_neg hmiss]
        constructor
        · intro s
          split
          · intro he
            exact absurd he (by simp)
          · intro he
            injection he with h1
            exact h1.symm
        constructor
        · intro s
          split
          · intro he
            exact absurd he (by simp)
          · intro he
            injection he with h1
            exact h1.symm
        constructor
        · intro s
          split <;> simp
        · intro s
          split <;> simp

theorem claim5_witness :
    adminStudentsImport gen0 storeAB fileEmailCollision =
      .rejectedUnhandled storeAB ∧
    storeAB = storeAB :=
  ⟨by decide,
   (claim5_atomic_commit gen0 storeAB fileEmailCollision).1 storeAB (by decide)⟩

/-! ## Claim C6: export freshness and the export/import round trip -/

lemma hashPw_injective (p q : String) (h : hashPw p = hashPw q) : p = q := by
  unfold hashPw at h
  have hd := congrArg String.data h
  rw [String.data_append, String.data_append] at hd
  have hl := List.append_cancel_left hd
  cases p
  cases q
  exact congrArg String.mk hl

/-- The row data produced when an export row is read back by the import. -/
def exportRowData (gen : Nat → String) (i : Nat) (s : Account) : RowData :=
  { ma_sv := s.ma_sv, ten_sv := s.ten_sv, email := s.email,
    mat_khau_plain := gen i, gioi_tinh := s.gioi_tinh.getD "",
    dia_chi := s.dia_chi.getD "" }

/-- Invariants of every persisted store: the unique constraints of
`models.py` and the normalization every write path applies (identifier
validated against the pattern, name and email stripped and nonempty, email
lowercased, gender and address never stored as the empty string). -/
structure StoreWf (store : List Account) : Prop where
  nodup_ma : (store.map (fun a => a.ma_sv)).Nodup
  nodup_email : (store.map (fun a => a.email)).Nodup
  ma_pat : ∀ a ∈ store, maSvPattern a.ma_sv = true
  ma_strip : ∀ a ∈ store, pyStrip a.ma_sv = a.ma_sv
  ten_strip : ∀ a ∈ store, pyStrip a.ten_sv = a.ten_sv
  ten_ne : ∀ a ∈ store, a.ten_sv ≠ ""
  email_strip : ∀ a ∈ store, pyStrip a.email = a.email
  email_lower : ∀ a ∈ store, pyLower a.email = a.email
  email_ne : ∀ a ∈ store, a.email ≠ ""
  gioi_wf : ∀ a ∈ store, ∀ g, a.gioi_tinh = some g → pyStrip g = g ∧ g ≠ ""
  dia_wf : ∀ a ∈ store, ∀ d, a.dia_chi = some d → pyStrip d = d ∧ d ≠ ""

/-- Facts about the `_random_password(10)` draws: ten alphanumeric
characters, hence nonempty and unaffected by stripping. -/
structure GenWf (gen : Nat → String) : Prop where
  ne : ∀ i, gen i ≠ ""
  strip : ∀ i, pyStrip (gen i) = gen i

/-- Reading back an export row recovers the account fields. -/
lemma readRow_exportRow (gen : Nat → String) (i : Nat) (s : Account)
    (hmas : pyStrip s.ma_sv = s.ma_sv)
    (htens : pyStrip s.ten_sv = s.ten_sv)
    (hems : pyStrip s.email = s.email) (heml : pyLower s.email = s.email)
    (hgens : pyStrip (gen i) = gen i)
    (hg : ∀ g, s.gioi_tinh = some g → pyStrip g = g)
    (hd : ∀ d, s.dia_chi = some d → pyStrip d = d) :
    readRow colsStd ((exportRow gen i s).map some) = exportRowData gen i s := by
  have hgi : pyStrip (s.gioi_tinh.getD "") = s.gioi_tinh.getD "" := by
    cases hcase : s.gioi_tinh with
    | none => decide
    | some g => simpa using hg g hcase
  have hdi : pyStrip (s.dia_chi.getD "") = s.dia_chi.getD "" := by
    cases hcase : s.dia_chi with
    | none => decide
    | some d => simpa using hd d hcase
  have hbase : readRow colsStd ((exportRow gen i s).map some) =
      { ma_sv := pyStrip s.ma_sv, ten_sv := pyStrip s.ten_sv,
          email := pyLower (pyStrip s.email), mat_khau_plain := pyStrip (gen i),
          gioi_tinh := pyStrip (s.gioi_tinh.getD ""),
          dia_chi := pyStrip (s.dia_chi.getD "") } := rfl
  rw [hbase, hmas, htens, hems, heml, hgens, hgi, hdi]
  rfl

/-- One export row processed by the admin import updates exactly the
account carrying that identifier. -/
lemma processRowAdmin_exportRow (gen : Nat → String) (st : ImpState) (i : Nat)
    (s : Account)
    (hrr : readRow colsStd ((exportRow gen i s).map some) = exportRowData gen i s)
    (hpat : maSvPattern s.ma_sv = true)
    (hten : s.ten_sv ≠ "") (hem : s.email ≠ "") (hgen : gen i ≠ "")
    (hpres : (st.store.find? (fun a => a.ma_sv = s.ma_sv)).isSome = true) :
    processRowAdmin gen colsStd st ((exportRow gen i s).map some) =
      { st with store := updateFirst (fun a => a.ma_sv = s.ma_sv)
                  (applyRowAdmin (exportRowData gen i s) (hashPw (gen i))) st.store } := by
  have hvalid : rowSkipCond (readRow colsStd ((exportRow gen i s).map some)) = false := by
    rw [hrr]
    unfold rowSkipCond exportRowData
    simp [maSvPattern_ne_empty s.ma_sv hpat, hten, hem, hpat]
  rw [processRowAdmin_valid gen colsStd st _ hvalid]
  dsimp only
  rw [hrr]
  unfold exportRowData importPlain importRng
  dsimp only
  rw [if_neg hgen, if_neg hgen, if_pos hpres]

lemma map_ite_key_id {α β : Type} [DecidableEq β] (key : α → β) (k : β) (f : α → α)
    (l : List α) (h : ∀ b ∈ l, key b ≠ k) :
    l.map (fun b => if key b = k then f b else b) = l := by
  induction l with
  | nil => rfl
  | cons a l ih =>
      have ha := h a (List.mem_cons_self a l)
      simp only [List.map_cons, if_neg ha]
      rw [ih (fun b hb => h b (List.mem_cons_of_mem a hb))]

/-- With duplicate-free keys, mutating the first match is mutating the only
match: `updateFirst` is a pointwise map. -/
lemma updateFirst_eq_map_of_nodup {α β : Type} [DecidableEq β] (key : α → β) (k : β)
    (f : α → α) (l : List α) (hnd : (l.map key).Nodup) :
    updateFirst (fun a => key a = k) f l
      = l.map (fun a => if key a = k then f a else a) := by
  induction l with
  | nil => rfl
  | cons a l ih =>
      rw [List.map_cons, List.nodup_cons] at hnd
      unfold updateFirst
      by_cases hk : key a = k
      · simp only [hk, List.map_cons, if_pos hk]
        have hrest : ∀ b ∈ l, key b ≠ k := by
          intro b hb hbk
          exact hnd.1 (by rw [← hk] at hbk; exact hbk ▸ List.mem_map_of_mem key hb)
        rw [map_ite_key_id key k f l hrest]
        simp
      · simp only [hk, List.map_cons, if_neg hk]
        rw [ih hnd.2]
        simp

/-- The cumulative effect of the re-imported export rows on one account. -/
def jobApply (gen : Nat → String) (jobs : List (Nat × Account)) (a : Account) : Account :=
  match jobs.find? (fun p => p.2.ma_sv = a.ma_sv) with
  | some p => applyRowAdmin (exportRowData gen p.1 p.2) (hashPw (gen p.1)) a
  | none => a

/-- `applyRowAdmin` on an export row does not change the identifier of the
matched account. -/
lemma applyRowAdmin_export_ma (gen : Nat → String) (i : Nat) (s a : Account) :
    (applyRowAdmin (exportRowData gen i s) (hashPw (gen i)) a).ma_sv = s.ma_sv := rfl

/-- Folding the admin import over the re-read export rows updates every
account whose identifier occurs among the rows, in place, and nothing
else: no counter moves and no account is created. -/
lemma import_fold_export_rows (gen : Nat → String) (jobs : List (Nat × Account))
    (st : ImpState)
    (hnd : (st.store.map (fun a => a.ma_sv)).Nodup)
    (hkeys : (jobs.map (fun p => p.2.ma_sv)).Nodup)
    (hpres : ∀ p ∈ jobs, ∃ a ∈ st.store, a.ma_sv = p.2.ma_sv)
    (hwf : ∀ p ∈ jobs, maSvPattern p.2.ma_sv = true ∧ pyStrip p.2.ma_sv = p.2.ma_sv ∧
      pyStrip p.2.ten_sv = p.2.ten_sv ∧ p.2.ten_sv ≠ "" ∧
      pyStrip p.2.email = p.2.email ∧ pyLower p.2.email = p.2.email ∧ p.2.email ≠ "" ∧
      (∀ g, p.2.gioi_tinh = some g → pyStrip g = g) ∧
      (∀ d, p.2.dia_chi = some d → pyStrip d = d) ∧
      gen p.1 ≠ "" ∧ pyStrip (gen p.1) = gen p.1) :
    (jobs.map (fun p => (exportRow gen p.1 p.2).map some)).foldl
        (processRowAdmin gen colsStd) st
      = { st with store := st.store.map (jobApply gen jobs) } := by
  induction jobs generalizing st with
  | nil =>
      simp only [List.map_nil, List.foldl_nil]
      have h1 : st.store.map (jobApply gen []) = st.store.map id :=
        List.map_congr_left (fun a _ => rfl)
      rw [h1, List.map_id]
  | cons j jobs ih =>
      obtain ⟨i, s⟩ := j
      obtain ⟨hpat, hmas, htens, hten, hems, heml, hem, hg, hd, hgen, hgens⟩ :=
        hwf (i, s) (List.mem_cons_self _ _)
      have hfind : (st.store.find? (fun a => a.ma_sv = s.ma_sv)).isSome = true := by
        rw [List.find?_isSome]
        obtain ⟨a, ha, hma⟩ := hpres (i, s) (List.mem_cons_self _ _)
        exact ⟨a, ha, by simpa using hma⟩
      have hrr := readRow_exportRow gen i s hmas htens hems heml hgens hg hd
      have hstep := processRowAdmin_exportRow gen st i s hrr hpat hten hem hgen hfind
      simp only [List.map_cons, List.foldl_cons]
      rw [hstep]
      rw [updateFirst_eq_map_of_nodup (fun a => a.ma_sv) s.ma_sv
        (applyRowAdmin (exportRowData gen i s) (hashPw (gen i))) st.store hnd]
      have hma_pres : ∀ a : Account,
          ((fun a => if a.ma_sv = s.ma_sv
            then applyRowAdmin (exportRowData gen i s) (hashPw (gen i)) a else a) a).ma_sv
          = a.ma_sv := by
        intro a
        by_cases hk : a.ma_sv = s.ma_sv
        · simp only [if_pos hk, applyRowAdmin_export_ma]
          exact hk.symm
        · simp only [if_neg hk]
      have hmap_ma : ((st.store.map (fun a => if a.ma_sv = s.ma_sv
          then applyRowAdmin (exportRowData gen i s) (hashPw (gen i)) a else a)).map
            (fun a => a.ma_sv))
          = st.store.map (fun a => a.ma_sv) := by
        rw [List.map_map]
        exact List.map_congr_left (fun a _ => hma_pres a)
      have hkeys2 := hkeys
      rw [List.map_cons, List.nodup_cons] at hkeys2
      have hih := ih { st with store := st.store.map (fun a => if a.ma_sv = s.ma_sv
          then applyRowAdmin (exportRowData gen i s) (hashPw (gen i)) a else a) }
        (by simpa [hmap_ma] using hnd)
        hkeys2.2
        (by
          intro p hp
          obtain ⟨a, ha, hma⟩ := hpres p (List.mem_cons_of_mem _ hp)
          refine ⟨(fun a => if a.ma_sv = s.ma_sv
            then applyRowAdmin (exportRowData gen i s) (hashPw (gen i)) a else a) a,
            List.mem_map_of_mem _ ha, ?_⟩
          rw [hma_pres a]
          exact hma)
        (fun p hp => hwf p (List.mem_cons_of_mem _ hp))
      rw [hih]
      have hfield : ((st.store.map (fun a => if a.ma_sv = s.ma_sv
          then applyRowAdmin (exportRowData gen i s) (hashPw (gen i)) a else a)).map
            (jobApply gen jobs))
          = st.store.map (jobApply gen ((i, s) :: jobs)) := by
        rw [List.map_map]
        apply List.map_congr_left
        intro a _
        show jobApply gen jobs (if a.ma_sv = s.ma_sv
          then applyRowAdmin (exportRowData gen i s) (hashPw (gen i)) a else a)
          = jobApply gen ((i, s) :: jobs) a
        by_cases hk : a.ma_sv = s.ma_sv
        · rw [if_pos hk]
          unfold jobApply
          have hnone : jobs.find? (fun p => p.2.ma_sv =
              (applyRowAdmin (exportRowData gen i s) (hashPw (gen i)) a).ma_sv) = none := by
            rw [List.find?_eq_none]
            intro p hp
            rw [applyRowAdmin_export_ma]
            simp only [decide_eq_true_eq]
            intro hbad
            exact hkeys2.1 (hbad ▸ List.mem_map_of_mem (fun p => p.2.ma_sv) hp)
          rw [hnone, List.find?_cons_of_pos _ (by simpa using hk.symm)]
        · rw [if_neg hk]
          unfold jobApply
          rw [List.find?_cons_of_neg _ (by simpa using fun h => hk h.symm)]
      rw [hfield]

/-- For a well-formed store, the cumulative row effect on an account in the
store is exactly the spec-side password rotation. -/
lemma jobApply_eq_rotF (gen : Nat → String) (store : List Account)
    (hwf : StoreWf store) :
    ∀ a ∈ store,
      jobApply gen ((store.filter (fun s => s.role = "student")).enum) a
        = rotF gen store a := by
  intro a ha
  unfold jobApply rotF
  cases hf : ((store.filter (fun s => s.role = "student")).enum).find?
      (fun p => p.2.ma_sv = a.ma_sv) with
  | none => rfl
  | some p =>
      have hpm := List.mem_of_find?_eq_some hf
      have hpp : p.2.ma_sv = a.ma_sv := by simpa using List.find?_some hf
      have hp2f : p.2 ∈ store.filter (fun s => s.role = "student") := by
        have hmm := List.mem_map_of_mem Prod.snd hpm
        rwa [List.enum_map_snd] at hmm
      have hp2 : p.2 ∈ store := List.mem_of_mem_filter hp2f
      have hrole : p.2.role = "student" := by
        simpa using List.of_mem_filter hp2f
      have hpa : p.2 = a := List.inj_on_of_nodup_map hwf.nodup_ma hp2 ha hpp
      subst hpa
      have hgw := hwf.gioi_wf p.2 hp2
      have hdw := hwf.dia_wf p.2 hp2
      unfold applyRowAdmin exportRowData
      have hgi : (if (p.2.gioi_tinh.getD "") = "" then none
          else some (p.2.gioi_tinh.getD "")) = p.2.gioi_tinh := by
        cases hcase : p.2.gioi_tinh with
        | none => simp
        | some g => simp [(hgw g hcase).2]
      have hdd : (if (p.2.dia_chi.getD "") = "" then none
          else some (p.2.dia_chi.getD "")) = p.2.dia_chi := by
        cases hcase : p.2.dia_chi with
        | none => simp
        | some d => simp [(hdw d hcase).2]
      dsimp only
      rw [hgi, hdd, ← hrole]

/-- The rotation never touches the identifier. -/
lemma rotF_ma (gen : Nat → String) (store : List Account) (a : Account) :
    (rotF gen store a).ma_sv = a.ma_sv := by
  unfold rotF
  cases hf : ((store.filter (fun s => s.role = "student")).enum).find?
      (fun p => p.2.ma_sv = a.ma_sv) <;> rfl

/-- The rotation never touches the email. -/
lemma rotF_email (gen : Nat → String) (store : List Account) (a : Account) :
    (rotF gen store a).email = a.email := by
  unfold rotF
  cases hf : ((store.filter (fun s => s.role = "student")).enum).find?
      (fun p => p.2.ma_sv = a.ma_sv) <;> rfl

/-- The admin export output does not depend on the stored password hashes. -/
lemma adminExport_scrub (gen : Nat → String) (store : List Account) :
    (adminStudentsExport gen (scrubHashes store)).1
      = (adminStudentsExport gen store).1 := by
  unfold adminStudentsExport scrubHashes
  dsimp only
  congr 1
  have hfilter : (store.map (fun a => { a with mat_khau := "" })).filter
      (fun s => s.role = "student")
      = (store.filter (fun s => s.role = "student")).map
          (fun a => { a with mat_khau := "" }) := by
    induction store with
    | nil => rfl
    | cons a l ih =>
        simp only [List.map_cons, List.filter_cons]
        by_cases h : a.role = "student"
        · simp only [h]
          simp [ih]
          exact h.symm
        · simp only [h]
          simp [h, ih]
  rw [hfilter, List.enum_map, List.map_map]
  apply List.map_congr_left
  intro p _
  rfl

/-- The legacy export output does not depend on the stored hashes either. -/
lemma appExport_scrub (gen : Nat → String) (store : List Account) :
    (appStudentsExport gen (scrubHashes store)).1
      = (appStudentsExport gen store).1 := by
  unfold appStudentsExport scrubHashes
  dsimp only
  congr 1
  rw [List.enum_map, List.map_map]
  apply List.map_congr_left
  intro p _
  rfl

/-- C6 (amended): the ADMIN export emits the fixed header row plus exactly
one row per student-role account, while the LEGACY export (`app.py`) emits
one row per account of every role; in both, the password cell of each row
is the freshly generated random draw for that row, the output is
independent of the stored password hashes (scrubbing every hash leaves it
unchanged), and the store is returned untouched.  Export followed
immediately by import of the same file commits a store in which every
student-role account keeps all its data except that its hash is the hash of
the freshly generated password — which differs from the stored hash
whenever the fresh draw differs from the account's original password — so
the round trip does not restore the original passwords; accounts outside
the student category are left untouched by the rotation. -/
theorem claim6_export_fresh_passwords (gen : Nat → String) (store : List Account)
    (origPw : Account → String)
    (hwf : StoreWf store) (hgen : GenWf gen)
    (horig : ∀ a ∈ store, a.mat_khau = hashPw (origPw a))
    (hfresh : ∀ (i : Nat), ∀ a ∈ store, gen i ≠ origPw a) :
    (adminStudentsExport gen store).1 =
      EXPORT_HEADERS :: ((store.filter (fun s => s.role = "student")).enum.map
        (fun p => exportRow gen p.1 p.2)) ∧
    (adminStudentsExport gen store).2 = store ∧
    (appStudentsExport gen store).1 =
      EXPORT_HEADERS :: (store.enum.map (fun p => exportRow gen p.1 p.2)) ∧
    (appStudentsExport gen store).2 = store ∧
    (adminStudentsExport gen (scrubHashes store)).1 = (adminStudentsExport gen store).1 ∧
    (appStudentsExport gen (scrubHashes store)).1 = (appStudentsExport gen store).1 ∧
    adminStudentsImport gen store (asImportFile (adminStudentsExport gen store).1)
      = .committed (rotated gen store) 0 0 ∧
    (∀ a ∈ store, a.role = "student" → (rotF gen store a).mat_khau ≠ a.mat_khau) ∧
    (∀ a ∈ store, a.role ≠ "student" → rotF gen store a = a) := by
  refine ⟨rfl, rfl, rfl, rfl, adminExport_scrub gen store, appExport_scrub gen store,
    ?_, ?_, ?_⟩
  · -- the round trip commits the rotated store
    have hkeys : (((store.filter (fun s => s.role = "student")).enum).map
        (fun p => p.2.ma_sv)).Nodup := by
      have h2 : (((store.filter (fun s => s.role = "student")).enum).map
          (fun p => p.2.ma_sv))
          = (((store.filter (fun s => s.role = "student")).enum).map Prod.snd).map
              (fun a => a.ma_sv) := by
        rw [List.map_map]
        rfl
      rw [h2, List.enum_map_snd]
      exact hwf.nodup_ma.sublist (List.Sublist.map _ (List.filter_sublist store))
    have hpres : ∀ p ∈ (store.filter (fun s => s.role = "student")).enum,
        ∃ a ∈ store, a.ma_sv = p.2.ma_sv := by
      intro p hp
      have hp2f : p.2 ∈ store.filter (fun s => s.role = "student") := by
        have hmm := List.mem_map_of_mem Prod.snd hp
        rwa [List.enum_map_snd] at hmm
      exact ⟨p.2, List.mem_of_mem_filter hp2f, rfl⟩
    have hjobs : ∀ p ∈ (store.filter (fun s => s.role = "student")).enum,
        maSvPattern p.2.ma_sv = true ∧ pyStrip p.2.ma_sv = p.2.ma_sv ∧
        pyStrip p.2.ten_sv = p.2.ten_sv ∧ p.2.ten_sv ≠ "" ∧
        pyStrip p.2.email = p.2.email ∧ pyLower p.2.email = p.2.email ∧
        p.2.email ≠ "" ∧
        (∀ g, p.2.gioi_tinh = some g → pyStrip g = g) ∧
        (∀ d, p.2.dia_chi = some d → pyStrip d = d) ∧
        gen p.1 ≠ "" ∧ pyStrip (gen p.1) = gen p.1 := by
      intro p hp
      have hp2f : p.2 ∈ store.filter (fun s => s.role = "student") := by
        have hmm := List.mem_map_of_mem Prod.snd hp
        rwa [List.enum_map_snd] at hmm
      have hp2 : p.2 ∈ store := List.mem_of_mem_filter hp2f
      exact ⟨hwf.ma_pat p.2 hp2, hwf.ma_strip p.2 hp2, hwf.ten_strip p.2 hp2,
        hwf.ten_ne p.2 hp2, hwf.email_strip p.2 hp2, hwf.email_lower p.2 hp2,
        hwf.email_ne p.2 hp2, fun g hg => (hwf.gioi_wf p.2 hp2 g hg).1,
        fun d hd => (hwf.dia_wf p.2 hp2 d hd).1, hgen.ne p.1, hgen.strip p.1⟩
    have hrot : store.map (jobApply gen
        ((store.filter (fun s => s.role = "student")).enum)) = rotated gen store := by
      unfold rotated
      exact List.map_congr_left (jobApply_eq_rotF gen store hwf)
    have hrotma : (rotated gen store).map (fun a => a.ma_sv)
        = store.map (fun a => a.ma_sv) := by
      unfold rotated
      rw [List.map_map]
      exact List.map_congr_left (fun a _ => rotF_ma gen store a)
    have hrotem : (rotated gen store).map (fun a => a.email)
        = store.map (fun a => a.email) := by
      unfold rotated
      rw [List.map_map]
      exact List.map_congr_left (fun a _ => rotF_email gen store a)
    have hcommit : commitOk (rotated gen store) = true := by
      unfold commitOk
      rw [hrotma, hrotem]
      simp [hwf.nodup_ma, hwf.nodup_email]
    unfold adminStudentsExport asImportFile
    dsimp only
    rw [List.map_cons]
    unfold adminStudentsImport
    dsimp only
    have hhead : (EXPORT_HEADERS.map some).map normCell = EXPORT_HEADERS := by decide
    rw [hhead]
    have hmiss : (EXPORT_HEADERS.filter
        (fun h => (colIndex EXPORT_HEADERS h).isNone)) = [] := by decide
    rw [hmiss]
    rw [if_neg (fun hcon => hcon rfl)]
    rw [List.map_map]
    have hcomp : ((fun r => List.map some r) ∘ fun p => exportRow gen p.1 p.2)
        = fun p : Nat × Account => (exportRow gen p.1 p.2).map some := rfl
    rw [hcomp]
    rw [show colIndex EXPORT_HEADERS = colsStd from rfl]
    rw [import_fold_export_rows gen
      ((store.filter (fun s => s.role = "student")).enum)
      { store := store, nextId := nextFreeId store, added := 0, skipped := 0, rng := 0 }
      hwf.nodup_ma hkeys hpres hjobs]
    dsimp only
    rw [hrot, if_pos hcommit]
  · -- the rotation replaces every student hash with a fresh one
    intro a ha hrole
    have haf : a ∈ store.filter (fun s => s.role = "student") :=
      List.mem_filter.mpr ⟨ha, by simp [hrole]⟩
    have hmem : a ∈ ((store.filter (fun s => s.role = "student")).enum).map Prod.snd := by
      rw [List.enum_map_snd]
      exact haf
    obtain ⟨p, hp, hsnd⟩ := List.mem_map.mp hmem
    have hsome : (((store.filter (fun s => s.role = "student")).enum).find?
        (fun q => q.2.ma_sv = a.ma_sv)).isSome = true := by
      rw [List.find?_isSome]
      exact ⟨p, hp, by simp [hsnd]⟩
    unfold rotF
    cases hf : ((store.filter (fun s => s.role = "student")).enum).find?
        (fun q => q.2.ma_sv = a.ma_sv) with
    | none =>
        rw [hf] at hsome
        simp at hsome
    | some q =>
        dsimp only
        rw [horig a ha]
        intro heq
        exact hfresh q.1 a ha (hashPw_injective _ _ heq)
  · -- accounts outside the student category are untouched
    intro a ha hrole
    unfold rotF
    have hnone : ((store.filter (fun s => s.role = "student")).enum).find?
        (fun p => p.2.ma_sv = a.ma_sv) = none := by
      rw [List.find?_eq_none]
      intro p hp
      simp only [decide_eq_true_eq]
      intro hma
      have hp2f : p.2 ∈ store.filter (fun s => s.role = "student") := by
        have hmm := List.mem_map_of_mem Prod.snd hp
        rwa [List.enum_map_snd] at hmm
      have hp2 : p.2 ∈ store := List.mem_of_mem_filter hp2f
      have hrole2 : p.2.role = "student" := by
        simpa using List.of_mem_filter hp2f
      have hpa : p.2 = a := List.inj_on_of_nodup_map hwf.nodup_ma hp2 ha hma
      rw [hpa] at hrole2
      exact hrole hrole2
    rw [hnone]

/-- The seeded administrator account (`app.py` lines 82-88). -/
def acctAdmin : Account :=
  { id := 3, ma_sv := "ADMIN", ten_sv := "Admin", email := "admin@gmail.com",
    mat_khau := hashPw "123456", role := "admin", gioi_tinh := none,
    dia_chi := none, failed_attempts := 0, last_failed_at := none,
    lock_until := none }

/-- C6 counterexample: the legacy export route (`app.py` `students_export`,
one of the two code locations the claim describes) emits a data row for an
admin-role account — not one row per account of the student category —
while the admin export filters correctly. -/
theorem claim6_counterexample :
    (appStudentsExport gen0 [acctAdmin]).1 =
      [EXPORT_HEADERS, ["ADMIN", "Admin", "admin@gmail.com", "Np1", "", ""]] ∧
    acctAdmin.role ≠ "student" ∧
    (adminStudentsExport gen0 [acctAdmin]).1 = [EXPORT_HEADERS] := by
  refine ⟨by decide, by decide, by decide⟩

/-- The original plaintext behind the stored hash of `acctA`. -/
def origPw0 : Account → String := fun _ => "pass123"

lemma storeWf_A : StoreWf [acctA] := by
  refine ⟨by decide, by decide, ?_, ?_, ?_, ?_, ?_, ?_, ?_, ?_, ?_⟩
  all_goals intro a ha
  all_goals rw [List.mem_singleton] at ha
  all_goals subst ha
  · decide
  · decide
  · decide
  · decide
  · decide
  · decide
  · decide
  · intro g hg
    have hx : (some "Nam" : Option String) = some g := hg
    injection hx with h
    rw [← h]
    exact ⟨by decide, by decide⟩
  · intro d hd
    have hx : (some "HN" : Option String) = some d := hd
    injection hx with h
    rw [← h]
    exact ⟨by decide, by decide⟩

lemma genWf_gen0 : GenWf gen0 :=
  ⟨fun _ => by show ("Np1" : String) ≠ ""; decide,
   fun _ => by show pyStrip "Np1" = "Np1"; decide⟩

theorem claim6_witness :
    adminStudentsImport gen0 [acctA] (asImportFile (adminStudentsExport gen0 [acctA]).1)
      = .committed [{ acctA with mat_khau := hashPw "Np1" }] 0 0 ∧
    (rotF gen0 [acctA] acctA).mat_khau ≠ acctA.mat_khau := by
  have h := claim6_export_fresh_passwords gen0 [acctA] origPw0 storeWf_A genWf_gen0
    (by intro a ha; rw [List.mem_singleton] at ha; subst ha; rfl)
    (by
      intro i a ha
      rw [List.mem_singleton] at ha
      subst ha
      show ("Np1" : String) ≠ "pass123"
      decide)
  refine ⟨?_, ?_⟩
  · exact (h.2.2.2.2.2.2.1).trans (by decide)
  · exact h.2.2.2.2.2.2.2.1 acctA (by decide) rfl
